import Mathlib

/-!
A verification development for the simplepir LIFX controller.

The definitions below are a shallow embedding of `src/packet_builder.py`
and `src/lifx.py`: Python unbounded ints become `Int`/`Nat`, Python floats
at the inputs relevant to the theorems are modelled exactly as rationals
(each such input is checked to be exact in IEEE double arithmetic, noted
where it matters), byte arrays become `List Nat`, raising an exception
becomes returning `Except PyErr`, and the motion handler's callbacks and
timers become a step function over an explicit state with timer-armed
flags (a timer-fired event is only enabled while its flag is armed).
-/

namespace Lifx

/-- The Python exceptions the embedded code can raise, plus the
`EncodingError` type that exists only in the specification.
`indexError`: bytearray item assignment out of range;
`overflowError`: `int.to_bytes` on a negative value;
`stopIteration`: `next` on an exhausted iterator.
`encodingError` is modelled from the spec: the spec's error taxonomy
names an `EncodingError` class, but no such class is defined anywhere
in the source. -/
inductive PyErr
  | indexError
  | overflowError
  | stopIteration
  | encodingError
deriving DecidableEq, Repr

/-- Fuel-driven little-endian byte expansion, structural so the kernel can
evaluate it. `leBytesF fuel n` is the minimal little-endian byte list of
`n` provided `n ≤ fuel`. -/
def leBytesF : Nat → Nat → List Nat
  | _, 0 => []
  | 0, _ + 1 => []
  | f + 1, n + 1 => (n + 1) % 256 :: leBytesF f ((n + 1) / 256)

/-- `to_bytearray` from packet_builder.py (with the default `bitlength=8`):
`list(num.to_bytes((num.bit_length() + 7) // 8, "little"))`, i.e. the
minimal little-endian byte list of `num` (empty for 0). -/
def to_bytearray (num : Nat) : List Nat := leBytesF num num

/-- `int.from_bytes(piece, "little")`. -/
def leDecode : List Nat → Nat
  | [] => 0
  | b :: bs => b + 256 * leDecode bs

/-- `tobytes` from packet_builder.py: `int(number / 8)`. -/
def tobytes (number : Nat) : Nat := number / 8

/-- `packbytes` from packet_builder.py:
`reduce(append, pieces, pieces[0][0])` where
`append(prev, (val, length)) = (prev << length) | val`.
Note the fold's initial value is `pieces[0][0]`, the first pair's value,
and the fold then runs over all the pairs including the first one.
(Python raises on an empty argument list; no call site passes one, and the
`[]` case here is an arbitrary total completion.) -/
def packbytes : List (Nat × Nat) → Nat
  | [] => 0
  | p :: ps => (p :: ps).foldl (fun prev q => (prev <<< q.2) ||| q.1) p.1

/-- Fuel-driven bit length, structural so the kernel can evaluate it:
`bitLenF fuel n` is the bit length of `n` provided `n ≤ fuel`. -/
def bitLenF : Nat → Nat → Nat
  | _, 0 => 0
  | 0, _ + 1 => 0
  | f + 1, n + 1 => bitLenF f ((n + 1) / 2) + 1

/-- `n.bit_length()` for a natural number. -/
def bitLen (n : Nat) : Nat := bitLenF n n

/-- The length of the Python string `f"{piece:0{size}b}"`: the binary
rendering of `piece` (at least one character) left-padded with zeros to at
least `size` characters. -/
def strLen (piece size : Nat) : Nat := max size (max 1 (bitLen piece))

/-- `int(f"{piece:0{size}b}"[subindex:subindex + subsize], 2)` from
`deconstruct`, assuming `subindex + subsize ≤ strLen piece size` (true at
every call: the sub-widths of a composite field sum to exactly `size`). -/
def sliceBits (piece size subindex subsize : Nat) : Nat :=
  (piece >>> (strLen piece size - subindex - subsize)) % 2 ^ subsize

/-- `Packet.Part.Parameter`: a named byte array. -/
structure Parameter where
  name : String
  bytes : List Nat
deriving DecidableEq, Repr

/-- `Parameter.__init__(name, values, length, reverse)` for an integer
`values` (every call in the embedded code passes an integer or leaves the
default `0`): start from a zero bytearray of `length` bytes; if `values`
is non-zero, expand it with `to_bytearray` (negative values raise
`OverflowError` inside `int.to_bytes`), right-pad the byte list with
zeros to `length`, optionally reverse, and write it byte by byte into the
bytearray — which raises `IndexError` when the list is longer than
`length`. (`self.zfill(length)` in the source is a no-op: `bytes.zfill`
returns a new object that is discarded.) -/
def mkParameter (name : String) (value : Int) (length : Nat) (reverse : Bool) :
    Except PyErr Parameter :=
  if value = 0 then .ok ⟨name, List.replicate length 0⟩
  else if value < 0 then .error .overflowError
  else
    let val := to_bytearray value.toNat
    if length < val.length then .error .indexError
    else
      let values := val ++ List.replicate (length - val.length) 0
      .ok ⟨name, if reverse then values.reverse else values⟩

/-- `len` of a `Part`: the sum of its parameters' byte lengths. -/
def partLen (ps : List Parameter) : Nat :=
  ps.foldr (fun par acc => par.bytes.length + acc) 0

/-- The bytes of a `Part` in parameter order. -/
def partBytes (ps : List Parameter) : List Nat :=
  ps.foldr (fun par acc => par.bytes ++ acc) []

/-- `Packet`: four ordered parts, each an ordered list of parameters.
`Packet()` constructs all four empty. -/
structure Packet where
  frame : List Parameter
  frame_address : List Parameter
  protocol_header : List Parameter
  payload : List Parameter
deriving DecidableEq, Repr

/-- `Packet()`. -/
def Packet.empty : Packet := ⟨[], [], [], []⟩

/-- `Packet.__len__`: the byte length summed over the four parts, in
`get_parts` order (`vars(self)` insertion order). -/
def Packet.len (pk : Packet) : Nat :=
  partLen pk.frame + partLen pk.frame_address +
    partLen pk.protocol_header + partLen pk.payload

/-- `Packet.get_bytes`: every byte of every parameter of every part, in
order. -/
def Packet.get_bytes (pk : Packet) : List Nat :=
  partBytes pk.frame ++ partBytes pk.frame_address ++
    partBytes pk.protocol_header ++ partBytes pk.payload

/-- `True`/`False` used as an int (`prev |= val` on a bool operand). -/
def natOfBool (b : Bool) : Nat := if b then 1 else 0

/-- `Packet.set_headers(msgtype, tagged, source, res_required,
ack_required, sequence)`: appends the common header parameters.
`protocol = packbytes((0b00, 2), (tagged, 1), (True, 1), (1024, 12))`,
`resp = packbytes((0, 6), (ack_required, 1), (res_required, 1))`. -/
def Packet.set_headers (pk : Packet) (msgtype : Int) (tagged : Bool)
    (source : Int) (res_required : Bool) (ack_required : Bool)
    (sequence : Int) : Except PyErr Packet := do
  let protocol := packbytes [(0, 2), (natOfBool tagged, 1), (1, 1), (1024, 12)]
  let p_protocol ← mkParameter "protocol" (protocol : Int) (tobytes 16) false
  let p_source ← mkParameter "source" source (tobytes 32) false
  let p_target ← mkParameter "target" 0 (tobytes 64) false
  let p_reserved1 ← mkParameter "reserved" 0 (tobytes 48) false
  let resp := packbytes [(0, 6), (natOfBool ack_required, 1), (natOfBool res_required, 1)]
  let p_resp ← mkParameter "resp" (resp : Int) (tobytes 8) false
  let p_sequence ← mkParameter "sequence" sequence (tobytes 8) false
  let p_reserved2 ← mkParameter "reserved" 0 (tobytes 64) false
  let p_msgtype ← mkParameter "message type" msgtype (tobytes 16) false
  let p_reserved3 ← mkParameter "reserved" 0 (tobytes 16) false
  .ok { pk with
    frame := pk.frame ++ [p_protocol, p_source]
    frame_address := pk.frame_address ++ [p_target, p_reserved1, p_resp, p_sequence]
    protocol_header := pk.protocol_header ++ [p_reserved2, p_msgtype, p_reserved3] }

/-- `Packet.set_size(length=2)`: prepend a zero `size` parameter of
`length` bytes to the frame part, then overwrite `frame[0]` with a fresh
2-byte `size` parameter holding `len(self)` — computed *after* the
prepend, so it includes the size field's own bytes. -/
def Packet.set_size (pk : Packet) (length : Nat) : Except PyErr Packet := do
  let z ← mkParameter "size" 0 length false
  let pk' : Packet := { pk with frame := z :: pk.frame }
  let sz ← mkParameter "size" (pk'.len : Int) 2 false
  .ok { pk' with frame := sz :: pk'.frame.tail }

/-- `Packet.msgtype`: `next(filter(lambda par: par.name == "message type",
self.protocol_header))` decoded little-endian; `next` on an empty filter
raises `StopIteration`. -/
def Packet.msgtype (pk : Packet) : Except PyErr Nat :=
  match pk.protocol_header.find? (fun par => par.name == "message type") with
  | some par => .ok (leDecode par.bytes)
  | none => .error .stopIteration

/-- Python `int()` applied to an exact rational value: truncation toward
zero. -/
def pyInt (q : ℚ) : Int := Int.tdiv q.num (q.den : Int)

/-- `Packet.get_state()`: headers for message type 101 (all other header
arguments at their defaults, `res_required=True` passed explicitly with
its default value), then `set_size`. -/
def Packet.get_state : Except PyErr Packet := do
  let pk ← Packet.set_headers Packet.empty 101 false 123 true false 0
  pk.set_size 2

/-- `Packet.state(hue, saturation, brightness, kelvin, duration)`:
headers for message type 102, payload `reserved(1)`, `hue(2)`,
`saturation(2)`, `brightness(2)`, `kelvin(2)`, `duration(4)` holding
`int(duration * 1000)`, then `set_size`. The four colour arguments are
the integers obtained from Python's `int(...)` coercion at the append
sites; `duration` stays exact as a rational. -/
def Packet.state (hue saturation brightness kelvin : Int) (duration : ℚ) :
    Except PyErr Packet := do
  let pk ← Packet.set_headers Packet.empty 102 false 123 true false 0
  let p_r ← mkParameter "reserved" 0 1 false
  let p_h ← mkParameter "hue" hue (tobytes 16) false
  let p_s ← mkParameter "saturation" saturation (tobytes 16) false
  let p_b ← mkParameter "brightness" brightness (tobytes 16) false
  let p_k ← mkParameter "kelvin" kelvin (tobytes 16) false
  let p_d ← mkParameter "duration" (pyInt (duration * 1000)) (tobytes 32) false
  Packet.set_size
    { pk with payload := pk.payload ++ [p_r, p_h, p_s, p_b, p_k, p_d] } 2

/-- `Packet.power(power, duration)`: headers for message type 117,
payload `level(2)` holding `int(0xFFFF * power)` and `duration(4)`
holding `int(duration * 1000)`, then `set_size`. -/
def Packet.power (power : Bool) (duration : ℚ) : Except PyErr Packet := do
  let pk ← Packet.set_headers Packet.empty 117 false 123 true false 0
  let p_l ← mkParameter "level" (if power then 65535 else 0) (tobytes 16) false
  let p_d ← mkParameter "duration" (pyInt (duration * 1000)) (tobytes 32) false
  Packet.set_size { pk with payload := pk.payload ++ [p_l, p_d] } 2

/-- `Packet.fastpwr(power)`: headers for message type 21, payload
`level(2)` holding `int(0xFFFF * power)`, then `set_size`. -/
def Packet.fastpwr (power : Bool) : Except PyErr Packet := do
  let pk ← Packet.set_headers Packet.empty 21 false 123 true false 0
  let p_l ← mkParameter "level" (if power then 65535 else 0) (tobytes 16) false
  Packet.set_size { pk with payload := pk.payload ++ [p_l] } 2

/-- A schema entry's size in `deconstruct`: a flat bit width, or a dict
of named sub-widths (a composite field). -/
inductive SizeSpec
  | flat (bits : Nat)
  | nested (subs : List (String × Nat))
deriving DecidableEq, Repr

/-- The inner loop of `deconstruct` for a dict-valued size: walk the
sub-widths in order, slicing the piece's `size`-wide binary string. -/
def subSlices (piece size : Nat) : Nat → List (String × Nat) → List (String × Nat)
  | _, [] => []
  | subindex, (k, subsize) :: rest =>
      (k, sliceBits piece size subindex subsize) ::
        subSlices piece size (subindex + subsize) rest

/-- `deconstruct(packet, sizes)` from packet_builder.py, with the running
byte index made explicit. Each entry consumes `size // 8` bytes
(`packet[index:index + size // 8]` — Python slicing truncates silently at
the end of the data), decodes them little-endian, and yields either the
single `(key, piece)` pair or the composite field's sub-slices. -/
def deconstructFrom (packet : List Nat) : Nat → List (String × SizeSpec) → List (String × Nat)
  | _, [] => []
  | index, (key, SizeSpec.flat bits) :: rest =>
      let piece := leDecode ((packet.drop index).take (bits / 8))
      (key, piece) :: deconstructFrom packet (index + bits / 8) rest
  | index, (_, SizeSpec.nested subs) :: rest =>
      let bits := (subs.map (fun s => s.2)).sum
      let piece := leDecode ((packet.drop index).take (bits / 8))
      subSlices piece bits 0 subs ++ deconstructFrom packet (index + bits / 8) rest

/-- `deconstruct(packet, sizes)`. -/
def deconstruct (packet : List Nat) (sizes : List (String × SizeSpec)) :
    List (String × Nat) :=
  deconstructFrom packet 0 sizes

/-- `MSGHEADER` from packet_builder.py. -/
def MSGHEADER : List (String × SizeSpec) :=
  [("size", .flat 16),
   ("protocol", .nested
     [("origin", 2), ("tagged", 1), ("addressable", 1), ("protocol", 12)]),
   ("source", .flat 32),
   ("target", .flat 64),
   ("reserved", .flat 48),
   ("resp", .nested
     [("reserved", 6), ("ack_required", 1), ("res_required", 1)]),
   ("sequence", .flat 8),
   ("reserved", .flat 64),
   ("type", .flat 16),
   ("reserved", .flat 16)]

/-- The `decodemap` built inside `get_state` in lifx.py: the shared
header schema followed by the state-payload schema. -/
def decodemap : List (String × SizeSpec) :=
  MSGHEADER ++
    [("hue", .flat 16),
     ("saturation", .flat 16),
     ("brightness", .flat 16),
     ("kelvin", .flat 16),
     ("reserved", .flat 16),
     ("power", .flat 16),
     ("label", .flat 32),
     ("reserved", .flat 64)]

/-- `dict(...).get(key)`: with duplicate keys the later pair wins, as in
Python dict construction from a pair iterator. -/
def dictGet (m : List (String × Nat)) (k : String) : Option Nat :=
  (m.reverse.find? (fun kv => kv.1 == k)).map (fun kv => kv.2)

/-- `dict(...).get(key, default)`. -/
def dictGetD (m : List (String × Nat)) (k : String) (d : Nat) : Nat :=
  (dictGet m k).getD d

/-- `get_state(device)` from lifx.py, with the received response datagram
passed in explicitly (the UDP transport is outside the model):
`dict(deconstruct(response, decodemap))`, kept as the yielded pair list
with `dictGet` providing the dict lookup semantics. -/
def get_state (response : List Nat) : List (String × Nat) :=
  deconstruct response decodemap

/-- One set-color command sent by `MotionHandler.brightness`: the
arguments of the `Packet.state(...)` call inside `send_packet`.
`level` is the raw `level` argument (a fraction of full scale); the
packet's brightness argument is `level * 0xFFFF`. -/
structure SetColorCmd where
  hue : Int
  saturation : Int
  level : ℚ
  kelvin : Int
  duration : ℚ
deriving DecidableEq, Repr

/-- The packet a command builds:
`Packet.state(state.hue, state.saturation, level * 0xFFFF, state.kelvin,
duration)` with Python's `int()` applied to the brightness float inside
the builder. -/
def SetColorCmd.packet (c : SetColorCmd) : Except PyErr Packet :=
  Packet.state c.hue c.saturation (pyInt (c.level * 65535)) c.kelvin c.duration

/-- The mutable state of a `MotionHandler` plus the poll loop's view of
it: the two timers are modelled by armed flags (`threading.Timer` objects
are alive exactly from `start()` until they fire or are cancelled; the
constructor creates them unstarted), and the commands sent so far are
accumulated in `sent`. -/
structure HandlerState where
  is_active : Bool
  is_fading : Bool
  timer_alive : Bool
  fading_timer_alive : Bool
  last_state : List (String × Nat)
  sent : List SetColorCmd
deriving DecidableEq, Repr

/-- The state after `MotionHandler.__init__`: `last_state = {}`,
`is_active = True`, `is_fading = False`, both timers constructed but not
started. -/
def MotionHandler.init : HandlerState :=
  ⟨true, false, false, false, [], []⟩

/-- `MotionHandler.brightness(level, duration)`:
`state = self.last_state or get_state(Device.Taklampa)` (an empty dict is
falsy, so an empty cache triggers a live query, whose decoded response is
the `oracle` argument), then one `send_packet(Packet.state(...))`. -/
def MotionHandler.brightness (oracle : List (String × Nat))
    (s : HandlerState) (level : ℚ) (duration : ℚ) : HandlerState :=
  let st := if s.last_state.isEmpty then oracle else s.last_state
  { s with sent := s.sent ++
      [⟨(dictGetD st "hue" 0 : Int), (dictGetD st "saturation" 0 : Int),
        level, (dictGetD st "kelvin" 3500 : Int), duration⟩] }

/-- `MotionHandler.motion`: cancel both timers if alive; if not active,
issue a restore at `last_brightness / 0xFFFF` (or level 1 when the cache
has no brightness) over the default 0.1-second ramp; set active.
The division is exact here as a rational; at the brightness values the
claims use (40000 and the no-cache full scale) the IEEE double
computation `int(lb / 0xFFFF * 0xFFFF)` gives the same integer. -/
def MotionHandler.motion (oracle : List (String × Nat))
    (s : HandlerState) : HandlerState :=
  let s1 := { s with fading_timer_alive := false, timer_alive := false }
  let s2 :=
    if s1.is_active then s1
    else
      match dictGet s1.last_state "brightness" with
      | some lb => MotionHandler.brightness oracle s1 ((lb : ℚ) / 65535) (1/10)
      | none => MotionHandler.brightness oracle s1 1 (1/10)
  { s2 with is_active := true }

/-- `MotionHandler.no_motion`: cancel the inactivity timer if alive and
arm a fresh one. -/
def MotionHandler.no_motion (s : HandlerState) : HandlerState :=
  { s with timer_alive := true }

/-- `MotionHandler.timeout` (the inactivity timer fired): clear active,
dim to the dark floor `dark = 0.01` over `fadetime` seconds, cancel and
re-arm the fade timer, set fading. -/
def MotionHandler.timeout (oracle : List (String × Nat)) (fadetime : ℚ)
    (s : HandlerState) : HandlerState :=
  let s1 := { s with is_active := false, timer_alive := false }
  let s2 := MotionHandler.brightness oracle s1 (1/100) fadetime
  { s2 with fading_timer_alive := true, is_fading := true }

/-- `MotionHandler.fading_false` (the fade timer fired). -/
def MotionHandler.fading_false (s : HandlerState) : HandlerState :=
  { s with is_fading := false, fading_timer_alive := false }

/-- The events the handler reacts to, processed sequentially: the two
sensor callbacks and the two timer expirations. -/
inductive MotionEvent
  | motion
  | no_motion
  | timeout
  | fading_timeout
deriving DecidableEq, Repr

/-- One sequential event step. A timer-fired event is enabled only while
that timer is armed: a cancelled or never-started `threading.Timer` never
runs its callback. -/
def step (oracle : List (String × Nat)) (fadetime : ℚ)
    (s : HandlerState) : MotionEvent → HandlerState
  | .motion => MotionHandler.motion oracle s
  | .no_motion => MotionHandler.no_motion s
  | .timeout => if s.timer_alive then MotionHandler.timeout oracle fadetime s else s
  | .fading_timeout => if s.fading_timer_alive then MotionHandler.fading_false s else s

/-- A sequential run over an event list. -/
def run (oracle : List (String × Nat)) (fadetime : ℚ)
    (s : HandlerState) (events : List MotionEvent) : HandlerState :=
  events.foldl (step oracle fadetime) s

/-- `new_state.get("power") >= 0xFF00` from the poll loop (the decoded
state always carries a `power` key; a missing key would raise in Python
and in particular never update the cache). -/
def powerOn (m : List (String × Nat)) : Bool :=
  match dictGet m "power" with
  | some pw => 65280 ≤ pw
  | none => false

/-- One iteration of the `__main__` poll loop over a freshly decoded
device state: the handler-phase guard
`handler.is_active or (not handler.is_active and not handler.is_fading)`,
then the brightness/power guard
`new_state.get("brightness", 0) > (handler.dark * 10) * 0xFFFF and
new_state.get("power") >= 0xFF00` — with `dark = 0.01` the float
threshold `(0.01 * 10) * 0xFFFF` is exactly `6553.5`, so on integers the
comparison is `10 * brightness > 65535` — then the staleness guard
`new_state.get("brightness") != handler.last_state.get("brightness")`,
and only then `handler.last_state = new_state`. -/
def pollStep (s : HandlerState) (new_state : List (String × Nat)) : HandlerState :=
  if s.is_active || (!s.is_active && !s.is_fading) then
    if 65535 < 10 * dictGetD new_state "brightness" 0 ∧ powerOn new_state = true then
      if dictGet new_state "brightness" ≠ dictGet s.last_state "brightness" then
        { s with last_state := new_state }
      else s
    else s
  else s

/-- The little-endian size field decoded from a serialized packet: its
first two bytes as a 16-bit little-endian integer. -/
def decodedSize (pk : Packet) : Nat := leDecode (pk.get_bytes.take 2)

/-- Look a named payload field up and decode it little-endian. -/
def payloadField (pk : Packet) (nm : String) : Option Nat :=
  (pk.payload.find? (fun par => par.name == nm)).map (fun par => leDecode par.bytes)

/-- The byte list of a parameter holding `n` in `k` bytes: minimal
little-endian bytes right-padded with zeros. -/
def paramBytes (n k : Nat) : List Nat :=
  to_bytearray n ++ List.replicate (k - (to_bytearray n).length) 0

/-! ### Arithmetic facts about the byte codec -/

theorem leBytesF_congr : ∀ (f₁ f₂ n : Nat), n ≤ f₁ → n ≤ f₂ →
    leBytesF f₁ n = leBytesF f₂ n := by
  intro f₁
  induction f₁ with
  | zero =>
    intro f₂ n h1 _
    interval_cases n
    cases f₂ <;> rfl
  | succ f ih =>
    intro f₂ n h1 h2
    match n, f₂ with
    | 0, f₂ => cases f₂ <;> rfl
    | m + 1, g + 1 =>
      show (m + 1) % 256 :: leBytesF f ((m + 1) / 256) =
        (m + 1) % 256 :: leBytesF g ((m + 1) / 256)
      have hdiv : (m + 1) / 256 ≤ m := by
        have := Nat.div_lt_self (Nat.succ_pos m) (by norm_num : 1 < 256)
        omega
      rw [ih g ((m + 1) / 256) (by omega) (by omega)]

theorem to_bytearray_zero : to_bytearray 0 = [] := rfl

theorem to_bytearray_eq (n : Nat) (h : n ≠ 0) :
    to_bytearray n = n % 256 :: to_bytearray (n / 256) := by
  obtain ⟨m, rfl⟩ : ∃ m, n = m + 1 := ⟨n - 1, by omega⟩
  show leBytesF (m + 1) (m + 1) = (m + 1) % 256 :: leBytesF ((m + 1) / 256) ((m + 1) / 256)
  show (m + 1) % 256 :: leBytesF m ((m + 1) / 256) = _
  have hdiv : (m + 1) / 256 ≤ m := by
    have := Nat.div_lt_self (Nat.succ_pos m) (by norm_num : 1 < 256)
    omega
  rw [leBytesF_congr m ((m + 1) / 256) ((m + 1) / 256) hdiv le_rfl]

theorem leDecode_to_bytearray (n : Nat) : leDecode (to_bytearray n) = n := by
  induction n using Nat.strong_induction_on with
  | _ n ih =>
    by_cases h : n = 0
    · subst h; rfl
    · rw [to_bytearray_eq n h]
      show n % 256 + 256 * leDecode (to_bytearray (n / 256)) = n
      rw [ih (n / 256) (Nat.div_lt_self (Nat.pos_of_ne_zero h) (by norm_num))]
      omega

theorem leDecode_append_zeros (bs : List Nat) (k : Nat) :
    leDecode (bs ++ List.replicate k 0) = leDecode bs := by
  induction bs with
  | nil =>
    simp only [List.nil_append]
    induction k with
    | zero => rfl
    | succ j ihj => simpa [List.replicate_succ, leDecode] using ihj
  | cons b bs ih => simp [leDecode, ih]

theorem leDecode_paramBytes (n k : Nat) : leDecode (paramBytes n k) = n := by
  rw [paramBytes, leDecode_append_zeros, leDecode_to_bytearray]

theorem to_bytearray_length_le {n k : Nat} (h : n < 256 ^ k) :
    (to_bytearray n).length ≤ k := by
  induction k generalizing n with
  | zero =>
    have : n = 0 := by simpa using h
    subst this; simp [to_bytearray_zero]
  | succ j ih =>
    by_cases h0 : n = 0
    · subst h0; simp [to_bytearray_zero]
    · rw [to_bytearray_eq n h0]
      have hdiv : n / 256 < 256 ^ j := by
        rw [Nat.div_lt_iff_lt_mul (by norm_num : 0 < 256)]
        calc n < 256 ^ (j + 1) := h
        _ = 256 ^ j * 256 := by ring
      simpa using ih hdiv

theorem lt_of_to_bytearray_length_le {n k : Nat}
    (h : (to_bytearray n).length ≤ k) : n < 256 ^ k := by
  induction k generalizing n with
  | zero =>
    by_cases h0 : n = 0
    · subst h0; simp
    · rw [to_bytearray_eq n h0] at h
      simp at h
  | succ j ih =>
    by_cases h0 : n = 0
    · subst h0; positivity
    · rw [to_bytearray_eq n h0] at h
      simp only [List.length_cons] at h
      have hdiv : n / 256 < 256 ^ j := ih (by omega)
      have hmod : n % 256 < 256 := Nat.mod_lt _ (by norm_num)
      have hsum : n = 256 * (n / 256) + n % 256 := (Nat.div_add_mod n 256).symm
      have : 256 ^ (j + 1) = 256 * 256 ^ j := by ring
      omega

theorem paramBytes_length {n k : Nat} (h : n < 256 ^ k) :
    (paramBytes n k).length = k := by
  have := to_bytearray_length_le h
  simp [paramBytes]
  omega

/-! ### Parameter construction -/

theorem mkParameter_ok (nm : String) {v : Int} {len : Nat}
    (h0 : 0 ≤ v) (h1 : v.toNat < 256 ^ len) :
    mkParameter nm v len false = .ok ⟨nm, paramBytes v.toNat len⟩ := by
  by_cases hz : v = 0
  · subst hz
    simp [mkParameter, paramBytes, to_bytearray_zero]
  · have hpos : ¬v < 0 := not_lt.mpr h0
    have hlen : (to_bytearray v.toNat).length ≤ len := to_bytearray_length_le h1
    simp only [mkParameter, if_neg hz, if_neg hpos, if_neg (not_lt.mpr hlen),
      if_neg (Bool.false_ne_true)]
    rfl

theorem mkParameter_ok_inv {nm : String} {v : Int} {len : Nat} {r : Bool}
    {par : Parameter} (h : mkParameter nm v len r = .ok par) :
    0 ≤ v ∧ v.toNat < 256 ^ len := by
  by_cases hz : v = 0
  · subst hz; exact ⟨le_rfl, by positivity⟩
  · by_cases hneg : v < 0
    · simp [mkParameter, hz, hneg] at h
    · refine ⟨not_lt.mp hneg, ?_⟩
      simp only [mkParameter, if_neg hz, if_neg hneg] at h
      by_cases hlen : len < (to_bytearray v.toNat).length
      · simp [hlen] at h
      · exact lt_of_to_bytearray_length_le (not_lt.mp hlen)

/-! ### Part and packet serialization -/

theorem partLen_nil : partLen [] = 0 := rfl

theorem partLen_cons (p : Parameter) (ps : List Parameter) :
    partLen (p :: ps) = p.bytes.length + partLen ps := rfl

theorem partBytes_nil : partBytes [] = [] := rfl

theorem partBytes_cons (p : Parameter) (ps : List Parameter) :
    partBytes (p :: ps) = p.bytes ++ partBytes ps := rfl

theorem partBytes_length (ps : List Parameter) :
    (partBytes ps).length = partLen ps := by
  induction ps with
  | nil => rfl
  | cons p ps ih => simp [partBytes_cons, partLen_cons, ih]

theorem get_bytes_length (pk : Packet) : pk.get_bytes.length = pk.len := by
  simp [Packet.get_bytes, Packet.len, partBytes_length]
  omega

/-- `Except` bind on a success, for unfolding the builder pipelines. -/
theorem pbind_ok {α β : Type} (a : α) (f : α → Except PyErr β) :
    (Except.ok a : Except PyErr α) >>= f = f a := rfl

/-- `Except` bind on a raised exception. -/
theorem pbind_err {α β : Type} (e : PyErr) (f : α → Except PyErr β) :
    (Except.error e : Except PyErr α) >>= f = .error e := rfl

/-! ### `set_size` -/

theorem set_size_eq (pk : Packet) (h : pk.len + 2 < 65536) :
    pk.set_size 2 = .ok
      { pk with frame := ⟨"size", paramBytes (pk.len + 2) 2⟩ :: pk.frame } := by
  have hz : mkParameter "size" 0 2 false = .ok ⟨"size", List.replicate 2 0⟩ := rfl
  have hlen : ({ pk with frame := ⟨"size", List.replicate 2 0⟩ :: pk.frame } : Packet).len
      = pk.len + 2 := by
    simp [Packet.len, partLen_cons]
    omega
  have hsz : mkParameter "size"
      ((({ pk with frame := ⟨"size", List.replicate 2 0⟩ :: pk.frame } : Packet).len : Nat) : Int)
      2 false = .ok ⟨"size", paramBytes (pk.len + 2) 2⟩ := by
    rw [hlen]
    have := @mkParameter_ok "size" ((pk.len + 2 : Nat) : Int) 2
      (Int.natCast_nonneg _) (by simpa using h)
    simpa using this
  simp only [Packet.set_size, hz, pbind_ok, hsz]
  rfl

/-! ### The common header parameters produced by `set_headers` with the
builders' argument values (`tagged=False`, `source=123`,
`res_required=True`, `ack_required=False`, `sequence=0`):
`protocol = packbytes((0,2),(False,1),(True,1),(1024,12)) = 0x1400 = 5120`
and `resp = packbytes((0,6),(False,1),(True,1)) = 1`. -/

def hdrFrame : List Parameter :=
  [⟨"protocol", [0, 20]⟩, ⟨"source", [123, 0, 0, 0]⟩]

def hdrFA : List Parameter :=
  [⟨"target", [0, 0, 0, 0, 0, 0, 0, 0]⟩, ⟨"reserved", [0, 0, 0, 0, 0, 0]⟩,
   ⟨"resp", [1]⟩, ⟨"sequence", [0]⟩]

def hdrPH (mt : Nat) : List Parameter :=
  [⟨"reserved", [0, 0, 0, 0, 0, 0, 0, 0]⟩, ⟨"message type", paramBytes mt 2⟩,
   ⟨"reserved", [0, 0]⟩]

theorem set_headers101 :
    Packet.set_headers Packet.empty 101 false 123 true false 0 =
      .ok ⟨hdrFrame, hdrFA, hdrPH 101, []⟩ := rfl

theorem set_headers102 :
    Packet.set_headers Packet.empty 102 false 123 true false 0 =
      .ok ⟨hdrFrame, hdrFA, hdrPH 102, []⟩ := rfl

theorem set_headers117 :
    Packet.set_headers Packet.empty 117 false 123 true false 0 =
      .ok ⟨hdrFrame, hdrFA, hdrPH 117, []⟩ := rfl

theorem set_headers21 :
    Packet.set_headers Packet.empty 21 false 123 true false 0 =
      .ok ⟨hdrFrame, hdrFA, hdrPH 21, []⟩ := rfl

theorem tobytes8 : tobytes 8 = 1 := rfl
theorem tobytes16 : tobytes 16 = 2 := rfl
theorem tobytes32 : tobytes 32 = 4 := rfl

/-! ### `pyInt` -/

theorem pyInt_eq_floor {q : ℚ} (hq : 0 ≤ q) : pyInt q = ⌊q⌋ := by
  rw [pyInt, Int.tdiv_eq_ediv (Rat.num_nonneg.mpr hq) (Int.natCast_nonneg _),
    Rat.floor_def]

theorem pyInt_mul1000_bounds {d : ℚ} (h0 : 0 ≤ d) (h1 : d ≤ 4294967) :
    0 ≤ pyInt (d * 1000) ∧ pyInt (d * 1000) < 4294967296 := by
  have hq : (0 : ℚ) ≤ d * 1000 := by positivity
  rw [pyInt_eq_floor hq]
  constructor
  · exact Int.floor_nonneg.mpr hq
  · have hle : d * 1000 ≤ 4294967000 := by linarith
    have := Int.floor_le_floor hle
    have hfl : ⌊(4294967000 : ℚ)⌋ = 4294967000 := by norm_num
    omega

/-! ### Evaluating the builders under in-range arguments -/

theorem state_eq (h s b k : Int) (d : ℚ)
    (hh0 : 0 ≤ h) (hh1 : h < 65536) (hs0 : 0 ≤ s) (hs1 : s < 65536)
    (hb0 : 0 ≤ b) (hb1 : b < 65536) (hk0 : 0 ≤ k) (hk1 : k < 65536)
    (hd0 : 0 ≤ pyInt (d * 1000)) (hd1 : pyInt (d * 1000) < 4294967296) :
    Packet.state h s b k d = .ok
      ⟨⟨"size", paramBytes 49 2⟩ :: hdrFrame, hdrFA, hdrPH 102,
       [⟨"reserved", List.replicate 1 0⟩,
        ⟨"hue", paramBytes h.toNat 2⟩, ⟨"saturation", paramBytes s.toNat 2⟩,
        ⟨"brightness", paramBytes b.toNat 2⟩, ⟨"kelvin", paramBytes k.toNat 2⟩,
        ⟨"duration", paramBytes (pyInt (d * 1000)).toNat 4⟩]⟩ := by
  have mh : mkParameter "hue" h (tobytes 16) false = .ok ⟨"hue", paramBytes h.toNat 2⟩ :=
    mkParameter_ok _ hh0 (by norm_num [tobytes]; omega)
  have ms : mkParameter "saturation" s (tobytes 16) false =
      .ok ⟨"saturation", paramBytes s.toNat 2⟩ :=
    mkParameter_ok _ hs0 (by norm_num [tobytes]; omega)
  have mb : mkParameter "brightness" b (tobytes 16) false =
      .ok ⟨"brightness", paramBytes b.toNat 2⟩ :=
    mkParameter_ok _ hb0 (by norm_num [tobytes]; omega)
  have mk' : mkParameter "kelvin" k (tobytes 16) false =
      .ok ⟨"kelvin", paramBytes k.toNat 2⟩ :=
    mkParameter_ok _ hk0 (by norm_num [tobytes]; omega)
  have md : mkParameter "duration" (pyInt (d * 1000)) (tobytes 32) false =
      .ok ⟨"duration", paramBytes (pyInt (d * 1000)).toNat 4⟩ :=
    mkParameter_ok _ hd0 (by norm_num [tobytes]; omega)
  have mr : mkParameter "reserved" 0 1 false = .ok ⟨"reserved", List.replicate 1 0⟩ := rfl
  have lh : (paramBytes h.toNat 2).length = 2 := paramBytes_length (by norm_num; omega)
  have ls : (paramBytes s.toNat 2).length = 2 := paramBytes_length (by norm_num; omega)
  have lb : (paramBytes b.toNat 2).length = 2 := paramBytes_length (by norm_num; omega)
  have lk : (paramBytes k.toNat 2).length = 2 := paramBytes_length (by norm_num; omega)
  have ld : (paramBytes (pyInt (d * 1000)).toNat 4).length = 4 :=
    paramBytes_length (by norm_num; omega)
  have hpre : (⟨hdrFrame, hdrFA, hdrPH 102,
      [] ++ [⟨"reserved", List.replicate 1 0⟩,
        ⟨"hue", paramBytes h.toNat 2⟩, ⟨"saturation", paramBytes s.toNat 2⟩,
        ⟨"brightness", paramBytes b.toNat 2⟩, ⟨"kelvin", paramBytes k.toNat 2⟩,
        ⟨"duration", paramBytes (pyInt (d * 1000)).toNat 4⟩]⟩ : Packet).len = 47 := by
    have l102 : (paramBytes 102 2).length = 2 := rfl
    simp [Packet.len, partLen_cons, partLen_nil, hdrFrame, hdrFA, hdrPH,
      lh, ls, lb, lk, ld, l102]
  simp only [Packet.state, set_headers102, pbind_ok, mr, mh, ms, mb, mk', md]
  rw [set_size_eq _ (by rw [hpre]; norm_num)]
  rw [hpre]
  simp

theorem state_ok_ranges {h s b k : Int} {d : ℚ} {p : Packet}
    (hok : Packet.state h s b k d = .ok p) :
    (0 ≤ h ∧ h < 65536) ∧ (0 ≤ s ∧ s < 65536) ∧ (0 ≤ b ∧ b < 65536) ∧
      (0 ≤ k ∧ k < 65536) ∧
      (0 ≤ pyInt (d * 1000) ∧ pyInt (d * 1000) < 4294967296) := by
  have mr : mkParameter "reserved" 0 1 false = .ok ⟨"reserved", List.replicate 1 0⟩ := rfl
  simp only [Packet.state, set_headers102, pbind_ok, mr] at hok
  cases hh : mkParameter "hue" h (tobytes 16) false with
  | error e => rw [hh, pbind_err] at hok; cases hok
  | ok ph =>
    rw [hh, pbind_ok] at hok
    have rh := mkParameter_ok_inv hh
    cases hs : mkParameter "saturation" s (tobytes 16) false with
    | error e => rw [hs, pbind_err] at hok; cases hok
    | ok ps =>
      rw [hs, pbind_ok] at hok
      have rs := mkParameter_ok_inv hs
      cases hb : mkParameter "brightness" b (tobytes 16) false with
      | error e => rw [hb, pbind_err] at hok; cases hok
      | ok pb =>
        rw [hb, pbind_ok] at hok
        have rb := mkParameter_ok_inv hb
        cases hk : mkParameter "kelvin" k (tobytes 16) false with
        | error e => rw [hk, pbind_err] at hok; cases hok
        | ok pk =>
          rw [hk, pbind_ok] at hok
          have rk := mkParameter_ok_inv hk
          cases hd : mkParameter "duration" (pyInt (d * 1000)) (tobytes 32) false with
          | error e => rw [hd, pbind_err] at hok; cases hok
          | ok pd =>
            have rd := mkParameter_ok_inv hd
            rw [tobytes16] at rh rs rb rk
            rw [tobytes32] at rd
            norm_num at rh rs rb rk rd
            exact ⟨⟨rh.1, by omega⟩, ⟨rs.1, by omega⟩, ⟨rb.1, by omega⟩,
              ⟨rk.1, by omega⟩, ⟨rd.1, by omega⟩⟩

theorem get_state_eq :
    Packet.get_state = .ok ⟨⟨"size", paramBytes 36 2⟩ :: hdrFrame, hdrFA, hdrPH 101, []⟩ :=
  rfl

theorem fastpwr_eq (pw : Bool) :
    Packet.fastpwr pw = .ok ⟨⟨"size", paramBytes 38 2⟩ :: hdrFrame, hdrFA, hdrPH 21,
      [⟨"level", paramBytes (if pw then 65535 else 0) 2⟩]⟩ := by
  cases pw <;> rfl

theorem power_eq (pw : Bool) (d : ℚ)
    (hd0 : 0 ≤ pyInt (d * 1000)) (hd1 : pyInt (d * 1000) < 4294967296) :
    Packet.power pw d = .ok ⟨⟨"size", paramBytes 42 2⟩ :: hdrFrame, hdrFA, hdrPH 117,
      [⟨"level", paramBytes (if pw then 65535 else 0) 2⟩,
       ⟨"duration", paramBytes (pyInt (d * 1000)).toNat 4⟩]⟩ := by
  have ml : mkParameter "level" (if pw then 65535 else 0) (tobytes 16) false =
      .ok ⟨"level", paramBytes (if pw then 65535 else 0) 2⟩ := by
    cases pw <;> rfl
  have md : mkParameter "duration" (pyInt (d * 1000)) (tobytes 32) false =
      .ok ⟨"duration", paramBytes (pyInt (d * 1000)).toNat 4⟩ :=
    mkParameter_ok _ hd0 (by norm_num [tobytes]; omega)
  have ll : (paramBytes (if pw then 65535 else 0) 2).length = 2 := by
    cases pw <;> rfl
  have ld : (paramBytes (pyInt (d * 1000)).toNat 4).length = 4 :=
    paramBytes_length (by norm_num; omega)
  have hpre : (⟨hdrFrame, hdrFA, hdrPH 117,
      [] ++ [⟨"level", paramBytes (if pw then 65535 else 0) 2⟩,
        ⟨"duration", paramBytes (pyInt (d * 1000)).toNat 4⟩]⟩ : Packet).len = 40 := by
    have l117 : (paramBytes 117 2).length = 2 := rfl
    simp [Packet.len, partLen_cons, partLen_nil, hdrFrame, hdrFA, hdrPH, ll, ld, l117]
  simp only [Packet.power, set_headers117, pbind_ok, ml, md]
  rw [set_size_eq _ (by rw [hpre]; norm_num)]
  rw [hpre]
  simp

theorem power_ok_ranges {pw : Bool} {d : ℚ} {p : Packet}
    (hok : Packet.power pw d = .ok p) :
    0 ≤ pyInt (d * 1000) ∧ pyInt (d * 1000) < 4294967296 := by
  have ml : mkParameter "level" (if pw then 65535 else 0) (tobytes 16) false =
      .ok ⟨"level", paramBytes (if pw then 65535 else 0) 2⟩ := by
    cases pw <;> rfl
  simp only [Packet.power, set_headers117, pbind_ok, ml] at hok
  cases hd : mkParameter "duration" (pyInt (d * 1000)) (tobytes 32) false with
  | error e => rw [hd, pbind_err] at hok; cases hok
  | ok pd =>
    have rd := mkParameter_ok_inv hd
    rw [tobytes32] at rd
    norm_num at rd
    exact ⟨rd.1, by omega⟩

theorem decodedSize_cons {N : Nat} (hN : N < 65536)
    (rest fa ph pl : List Parameter) :
    decodedSize ⟨⟨"size", paramBytes N 2⟩ :: rest, fa, ph, pl⟩ = N := by
  have hlen : (paramBytes N 2).length = 2 := paramBytes_length (by norm_num; omega)
  have : (Packet.get_bytes ⟨⟨"size", paramBytes N 2⟩ :: rest, fa, ph, pl⟩) =
      paramBytes N 2 ++ (partBytes rest ++ partBytes fa ++ partBytes ph ++ partBytes pl) := by
    simp [Packet.get_bytes, partBytes_cons]
  rw [decodedSize, this, List.take_left' hlen, leDecode_paramBytes]

/-! ### The claims -/

/-- C1: the claim states that `packbytes` computes the fold
`result = (result << bit_width) | value` over the pairs starting from
zero, and that packing any in-range `(a, b, c)` and re-slicing the result
over `w1+w2+w3` bits returns `{a, b, c}` unchanged. The code folds
starting from `pieces[0][0]`, so the first value enters the result twice:
at `(a, w1, b, w2, c, w3) = (1, 2, 0, 1, 0, 13)` the code yields `81920`
where the fold-from-zero yields `16384`, and unpacking `81920` over 16
bits returns `a = 2, b = 1, c = 0` instead of `1, 0, 0`. -/
theorem C1_packbytes_double_counts_first_value :
    packbytes [(1, 2), (0, 1), (0, 13)] = 81920 ∧
    packbytes [(1, 2), (0, 1), (0, 13)] ≠
      List.foldl (fun prev q => (prev <<< q.2) ||| q.1) 0 [(1, 2), (0, 1), (0, 13)] ∧
    subSlices 81920 16 0 [("a", 2), ("b", 1), ("c", 13)] =
      [("a", 2), ("b", 1), ("c", 0)] ∧
    subSlices 81920 16 0 [("a", 2), ("b", 1), ("c", 13)] ≠
      [("a", 1), ("b", 0), ("c", 0)] := by
  refine ⟨rfl, by decide, by decide, by decide⟩

/-- C2: for every packet any of the four builders returns, the first two
serialized bytes decoded as a little-endian 16-bit integer equal the
total serialized byte length, size field included (`get_state` builds a
36-byte packet, `state` 49 bytes, `power` 42 bytes, `fastpwr` 38
bytes). -/
theorem C2_size_field_equals_length :
    (∃ p, Packet.get_state = .ok p ∧ decodedSize p = p.get_bytes.length ∧
      p.get_bytes.length = 36) ∧
    (∀ (h s b k : Int) (d : ℚ) (p : Packet), Packet.state h s b k d = .ok p →
      decodedSize p = p.get_bytes.length) ∧
    (∀ (pw : Bool) (d : ℚ) (p : Packet), Packet.power pw d = .ok p →
      decodedSize p = p.get_bytes.length) ∧
    (∀ (pw : Bool) (p : Packet), Packet.fastpwr pw = .ok p →
      decodedSize p = p.get_bytes.length) := by
  refine ⟨⟨_, get_state_eq, ?_, by decide⟩, ?_, ?_, ?_⟩
  · rw [decodedSize_cons (by norm_num)]
    decide
  · intro h s b k d p hok
    obtain ⟨⟨hh0, hh1⟩, ⟨hs0, hs1⟩, ⟨hb0, hb1⟩, ⟨hk0, hk1⟩, ⟨hd0, hd1⟩⟩ :=
      state_ok_ranges hok
    rw [state_eq h s b k d hh0 hh1 hs0 hs1 hb0 hb1 hk0 hk1 hd0 hd1] at hok
    injection hok with heq
    subst heq
    have lh : (paramBytes h.toNat 2).length = 2 := paramBytes_length (by norm_num; omega)
    have ls : (paramBytes s.toNat 2).length = 2 := paramBytes_length (by norm_num; omega)
    have lb : (paramBytes b.toNat 2).length = 2 := paramBytes_length (by norm_num; omega)
    have lk : (paramBytes k.toNat 2).length = 2 := paramBytes_length (by norm_num; omega)
    have ld : (paramBytes (pyInt (d * 1000)).toNat 4).length = 4 :=
      paramBytes_length (by norm_num; omega)
    rw [decodedSize_cons (by norm_num), get_bytes_length]
    have l102 : (paramBytes 102 2).length = 2 := rfl
    have l49 : (paramBytes 49 2).length = 2 := rfl
    simp [Packet.len, partLen_cons, partLen_nil, hdrFrame, hdrFA, hdrPH,
      lh, ls, lb, lk, ld, l102, l49]
  · intro pw d p hok
    obtain ⟨hd0, hd1⟩ := power_ok_ranges hok
    rw [power_eq pw d hd0 hd1] at hok
    injection hok with heq
    subst heq
    have ll : (paramBytes (if pw then 65535 else 0) 2).length = 2 := by
      cases pw <;> rfl
    have ld : (paramBytes (pyInt (d * 1000)).toNat 4).length = 4 :=
      paramBytes_length (by norm_num; omega)
    rw [decodedSize_cons (by norm_num), get_bytes_length]
    have l117 : (paramBytes 117 2).length = 2 := rfl
    have l42 : (paramBytes 42 2).length = 2 := rfl
    simp [Packet.len, partLen_cons, partLen_nil, hdrFrame, hdrFA, hdrPH,
      ll, ld, l117, l42]
  · intro pw p hok
    rw [fastpwr_eq pw] at hok
    injection hok with heq
    subst heq
    cases pw <;> decide

/-- C3: the claim states that `set_size` writes the packet's length as it
was *before* the 2-byte size field is prepended. It does not: the length
is taken after the prepend. For the `get_state` header packet the length
before finalization is 34 and the value written is 36. -/
theorem C3_counterexample :
    ∃ pk pk', Packet.set_headers Packet.empty 101 false 123 true false 0 = .ok pk ∧
      pk.len = 34 ∧ pk.set_size 2 = .ok pk' ∧ decodedSize pk' = 36 ∧
      (36 : Nat) ≠ 34 := by
  refine ⟨⟨hdrFrame, hdrFA, hdrPH 101, []⟩,
    ⟨⟨"size", paramBytes 36 2⟩ :: hdrFrame, hdrFA, hdrPH 101, []⟩,
    set_headers101, by decide, by rfl, by decide, by decide⟩

/-- C3 (amended): `set_size` stores, in the prepended 2-byte size field,
the packet's total length computed *after* the prepend: for a packet of
pre-finalization length `N` the stored value is `N + 2`, the full length
including the size field itself (which is what keeps the size prefix
self-describing). -/
theorem C3_set_size_stores_length_after_prepend :
    ∀ pk : Packet, pk.len + 2 < 65536 →
      ∃ pk', pk.set_size 2 = .ok pk' ∧
        pk'.frame = ⟨"size", paramBytes (pk.len + 2) 2⟩ :: pk.frame ∧
        leDecode (paramBytes (pk.len + 2) 2) = pk.len + 2 ∧
        pk'.len = pk.len + 2 := by
  intro pk h
  refine ⟨_, set_size_eq pk h, rfl, leDecode_paramBytes _ _, ?_⟩
  have hlen : pk.len = partLen pk.frame + partLen pk.frame_address +
      partLen pk.protocol_header + partLen pk.payload := rfl
  have hp : (paramBytes (pk.len + 2) 2).length = 2 :=
    paramBytes_length (by norm_num; omega)
  show (paramBytes (pk.len + 2) 2).length + partLen pk.frame +
      partLen pk.frame_address + partLen pk.protocol_header + partLen pk.payload =
    pk.len + 2
  rw [hp]
  omega

/-- C3 (witness): the amended statement applied to the empty packet:
finalizing it stores 0 + 2 = 2. -/
theorem C3_set_size_witness :
    Packet.empty.len + 2 < 65536 ∧
      ∃ pk', Packet.empty.set_size 2 = .ok pk' ∧
        pk'.frame = ⟨"size", paramBytes (Packet.empty.len + 2) 2⟩ :: Packet.empty.frame ∧
        leDecode (paramBytes (Packet.empty.len + 2) 2) = Packet.empty.len + 2 ∧
        pk'.len = Packet.empty.len + 2 :=
  ⟨by decide, C3_set_size_stores_length_after_prepend Packet.empty (by decide)⟩

/-- C4: the claim states that out-of-range payload values make
`Packet.state` raise `EncodingError`. No `EncodingError` class exists in
the source: `hue = 65536` raises the built-in `IndexError` (bytearray
assignment past the end) and `brightness = -1` raises the built-in
`OverflowError` (negative `int.to_bytes`) — neither is the spec's
`EncodingError`. -/
theorem C4_counterexample :
    Packet.state 65536 0 0 3500 0 = .error .indexError ∧
    Packet.state 0 0 (-1) 3500 0 = .error .overflowError ∧
    (Except.error .indexError : Except PyErr Packet) ≠ .error .encodingError ∧
    (Except.error .overflowError : Except PyErr Packet) ≠ .error .encodingError :=
  ⟨rfl, rfl,
   fun hc => PyErr.noConfusion (Except.error.inj hc),
   fun hc => PyErr.noConfusion (Except.error.inj hc)⟩

/-- C4 (amended): `Packet.state` does fail — never silently truncates —
on any payload field whose value does not fit its declared byte width,
but with the built-in exceptions, not the spec's `EncodingError`:
`hue = 65536` raises `IndexError`, `brightness = -1` raises
`OverflowError`, and in general an out-of-range hue, saturation,
brightness or kelvin value (2-byte fields), or a duration whose
`int(duration * 1000)` does not fit the 4-byte field, means no packet is
ever returned. -/
theorem C4_out_of_range_never_builds :
    Packet.state 65536 0 0 3500 0 = .error .indexError ∧
    Packet.state 0 0 (-1) 3500 0 = .error .overflowError ∧
    (∀ (h s b k : Int) (d : ℚ) (p : Packet),
      (¬(0 ≤ h ∧ h < 65536) ∨ ¬(0 ≤ s ∧ s < 65536) ∨ ¬(0 ≤ b ∧ b < 65536) ∨
        ¬(0 ≤ k ∧ k < 65536) ∨
        ¬(0 ≤ pyInt (d * 1000) ∧ pyInt (d * 1000) < 4294967296)) →
      Packet.state h s b k d ≠ .ok p) := by
  refine ⟨rfl, rfl, ?_⟩
  intro h s b k d p hbad hok
  have hr := state_ok_ranges hok
  tauto

/-- C5: the claim states that decoding a state response fails with
`DecodeError` when the datagram is shorter than the schema's 60 bytes. No
`DecodeError` class exists and `deconstruct` never checks the length: on
the empty datagram it still yields the complete 23-entry mapping, every
field reading 0 from the truncated data. -/
theorem C5_counterexample :
    deconstruct [] decodemap =
      [("size", 0), ("origin", 0), ("tagged", 0), ("addressable", 0),
       ("protocol", 0), ("source", 0), ("target", 0), ("reserved", 0),
       ("reserved", 0), ("ack_required", 0), ("res_required", 0),
       ("sequence", 0), ("reserved", 0), ("type", 0), ("reserved", 0),
       ("hue", 0), ("saturation", 0), ("brightness", 0), ("kelvin", 0),
       ("reserved", 0), ("power", 0), ("label", 0), ("reserved", 0)] ∧
    ([] : List Nat).length < 60 := by
  exact ⟨by decide, by decide⟩

/-- C5 (amended): the state-response decoder performs no length
validation and never fails: for every datagram shorter than the 60 bytes
the schema demands, `deconstruct` still returns the complete 23-entry
name-to-value mapping (bytes beyond the end of the datagram read as
zero), including a `brightness` entry. -/
theorem C5_decoder_total_on_short_input :
    ∀ packet : List Nat, packet.length < 60 →
      (deconstruct packet decodemap).length = 23 ∧
      ∃ b, dictGet (deconstruct packet decodemap) "brightness" = some b := by
  intro pkt hlen
  exact ⟨rfl, ⟨_, rfl⟩⟩

/-- C5 (witness): the amended statement applied to the empty datagram. -/
theorem C5_decoder_witness :
    ([] : List Nat).length < 60 ∧
      ((deconstruct [] decodemap).length = 23 ∧
        ∃ b, dictGet (deconstruct [] decodemap) "brightness" = some b) :=
  ⟨by decide, C5_decoder_total_on_short_input [] (by decide)⟩

/-- C6: a motion event in the dimmed state (`is_active = false`) with a
cached brightness of 40000 issues exactly one set-color command over a
0.1-second ramp whose brightness field decodes to 40000 (not full
scale) — and with an empty cache the command's brightness field decodes
to 0xFFFF = 65535. At brightness 40000 the intermediate
`int(40000 / 0xFFFF * 0xFFFF)` is exactly 40000 in IEEE doubles, so the
exact rational model coincides with the Python computation. -/
theorem C6_restore_uses_cached_brightness :
    (∀ (oracle : List (String × Nat)) (s : HandlerState),
      s.is_active = false → s.sent = [] →
      dictGet s.last_state "brightness" = some 40000 →
      dictGetD s.last_state "hue" 0 < 65536 →
      dictGetD s.last_state "saturation" 0 < 65536 →
      dictGetD s.last_state "kelvin" 3500 < 65536 →
      ∃ c, (MotionHandler.motion oracle s).sent = [c] ∧ c.duration = 1/10 ∧
        ∃ p, c.packet = .ok p ∧ payloadField p "brightness" = some 40000 ∧
          payloadField p "duration" = some 100) ∧
    (∀ (oracle : List (String × Nat)) (s : HandlerState),
      s.is_active = false → s.sent = [] → s.last_state = [] →
      dictGetD oracle "hue" 0 < 65536 →
      dictGetD oracle "saturation" 0 < 65536 →
      dictGetD oracle "kelvin" 3500 < 65536 →
      ∃ c, (MotionHandler.motion oracle s).sent = [c] ∧ c.duration = 1/10 ∧
        ∃ p, c.packet = .ok p ∧ payloadField p "brightness" = some 65535 ∧
          payloadField p "duration" = some 100) := by
  constructor
  · intro oracle s hact hsent hbr hh hsat hk
    have hne : s.last_state.isEmpty = false := by
      cases hls : s.last_state with
      | nil => rw [hls] at hbr; cases hbr
      | cons a l => rfl
    refine ⟨⟨(dictGetD s.last_state "hue" 0 : Int),
      (dictGetD s.last_state "saturation" 0 : Int), (40000 : ℚ) / 65535,
      (dictGetD s.last_state "kelvin" 3500 : Int), 1/10⟩, ?_, rfl, ?_⟩
    · simp [MotionHandler.motion, MotionHandler.brightness, hact, hbr, hsent, hne]
    · have hb40 : pyInt (((40000 : ℚ) / 65535) * 65535) = 40000 := by
        have h1 : ((40000 : ℚ) / 65535) * 65535 = 40000 := by norm_num
        rw [h1, pyInt_eq_floor (by norm_num)]
        norm_num
      have hd100 : pyInt ((1 / 10 : ℚ) * 1000) = 100 := by
        have h1 : ((1 / 10 : ℚ)) * 1000 = 100 := by norm_num
        rw [h1, pyInt_eq_floor (by norm_num)]
        norm_num
      refine ⟨⟨⟨"size", paramBytes 49 2⟩ :: hdrFrame, hdrFA, hdrPH 102,
        [⟨"reserved", List.replicate 1 0⟩,
         ⟨"hue", paramBytes (dictGetD s.last_state "hue" 0 : Int).toNat 2⟩,
         ⟨"saturation", paramBytes (dictGetD s.last_state "saturation" 0 : Int).toNat 2⟩,
         ⟨"brightness", paramBytes ((40000 : Int)).toNat 2⟩,
         ⟨"kelvin", paramBytes (dictGetD s.last_state "kelvin" 3500 : Int).toNat 2⟩,
         ⟨"duration", paramBytes (pyInt ((1/10 : ℚ) * 1000)).toNat 4⟩]⟩, ?_, ?_, ?_⟩
      · show Packet.state _ _ _ _ _ = _
        rw [hb40]
        exact state_eq _ _ 40000 _ (1/10) (Int.natCast_nonneg _)
          (by simpa using hh) (Int.natCast_nonneg _) (by simpa using hsat)
          (by norm_num) (by norm_num) (Int.natCast_nonneg _) (by simpa using hk)
          (by rw [hd100]; norm_num) (by rw [hd100]; norm_num)
      · have : payloadField
            ⟨⟨"size", paramBytes 49 2⟩ :: hdrFrame, hdrFA, hdrPH 102,
             [⟨"reserved", List.replicate 1 0⟩,
              ⟨"hue", paramBytes (dictGetD s.last_state "hue" 0 : Int).toNat 2⟩,
              ⟨"saturation", paramBytes (dictGetD s.last_state "saturation" 0 : Int).toNat 2⟩,
              ⟨"brightness", paramBytes ((40000 : Int)).toNat 2⟩,
              ⟨"kelvin", paramBytes (dictGetD s.last_state "kelvin" 3500 : Int).toNat 2⟩,
              ⟨"duration", paramBytes (pyInt ((1/10 : ℚ) * 1000)).toNat 4⟩]⟩
            "brightness" = some (leDecode (paramBytes ((40000 : Int)).toNat 2)) := rfl
        rw [this, leDecode_paramBytes]
        rfl
      · have : payloadField
            ⟨⟨"size", paramBytes 49 2⟩ :: hdrFrame, hdrFA, hdrPH 102,
             [⟨"reserved", List.replicate 1 0⟩,
              ⟨"hue", paramBytes (dictGetD s.last_state "hue" 0 : Int).toNat 2⟩,
              ⟨"saturation", paramBytes (dictGetD s.last_state "saturation" 0 : Int).toNat 2⟩,
              ⟨"brightness", paramBytes ((40000 : Int)).toNat 2⟩,
              ⟨"kelvin", paramBytes (dictGetD s.last_state "kelvin" 3500 : Int).toNat 2⟩,
              ⟨"duration", paramBytes (pyInt ((1/10 : ℚ) * 1000)).toNat 4⟩]⟩
            "duration" = some (leDecode (paramBytes (pyInt ((1/10 : ℚ) * 1000)).toNat 4)) := rfl
        rw [this, leDecode_paramBytes, hd100]
        rfl
  · intro oracle s hact hsent hls hh hsat hk
    refine ⟨⟨(dictGetD oracle "hue" 0 : Int),
      (dictGetD oracle "saturation" 0 : Int), 1,
      (dictGetD oracle "kelvin" 3500 : Int), 1/10⟩, ?_, rfl, ?_⟩
    · simp [MotionHandler.motion, MotionHandler.brightness, hact, hsent, hls,
        dictGet]
    · have hb : pyInt ((1 : ℚ) * 65535) = 65535 := by
        have h1 : ((1 : ℚ)) * 65535 = 65535 := by norm_num
        rw [h1, pyInt_eq_floor (by norm_num)]
        norm_num
      have hd100 : pyInt ((1 / 10 : ℚ) * 1000) = 100 := by
        have h1 : ((1 / 10 : ℚ)) * 1000 = 100 := by norm_num
        rw [h1, pyInt_eq_floor (by norm_num)]
        norm_num
      refine ⟨⟨⟨"size", paramBytes 49 2⟩ :: hdrFrame, hdrFA, hdrPH 102,
        [⟨"reserved", List.replicate 1 0⟩,
         ⟨"hue", paramBytes (dictGetD oracle "hue" 0 : Int).toNat 2⟩,
         ⟨"saturation", paramBytes (dictGetD oracle "saturation" 0 : Int).toNat 2⟩,
         ⟨"brightness", paramBytes ((65535 : Int)).toNat 2⟩,
         ⟨"kelvin", paramBytes (dictGetD oracle "kelvin" 3500 : Int).toNat 2⟩,
         ⟨"duration", paramBytes (pyInt ((1/10 : ℚ) * 1000)).toNat 4⟩]⟩, ?_, ?_, ?_⟩
      · show Packet.state _ _ _ _ _ = _
        rw [hb]
        exact state_eq _ _ 65535 _ (1/10) (Int.natCast_nonneg _)
          (by simpa using hh) (Int.natCast_nonneg _) (by simpa using hsat)
          (by norm_num) (by norm_num) (Int.natCast_nonneg _) (by simpa using hk)
          (by rw [hd100]; norm_num) (by rw [hd100]; norm_num)
      · have : payloadField
            ⟨⟨"size", paramBytes 49 2⟩ :: hdrFrame, hdrFA, hdrPH 102,
             [⟨"reserved", List.replicate 1 0⟩,
              ⟨"hue", paramBytes (dictGetD oracle "hue" 0 : Int).toNat 2⟩,
              ⟨"saturation", paramBytes (dictGetD oracle "saturation" 0 : Int).toNat 2⟩,
              ⟨"brightness", paramBytes ((65535 : Int)).toNat 2⟩,
              ⟨"kelvin", paramBytes (dictGetD oracle "kelvin" 3500 : Int).toNat 2⟩,
              ⟨"duration", paramBytes (pyInt ((1/10 : ℚ) * 1000)).toNat 4⟩]⟩
            "brightness" = some (leDecode (paramBytes ((65535 : Int)).toNat 2)) := rfl
        rw [this, leDecode_paramBytes]
        rfl
      · have : payloadField
            ⟨⟨"size", paramBytes 49 2⟩ :: hdrFrame, hdrFA, hdrPH 102,
             [⟨"reserved", List.replicate 1 0⟩,
              ⟨"hue", paramBytes (dictGetD oracle "hue" 0 : Int).toNat 2⟩,
              ⟨"saturation", paramBytes (dictGetD oracle "saturation" 0 : Int).toNat 2⟩,
              ⟨"brightness", paramBytes ((65535 : Int)).toNat 2⟩,
              ⟨"kelvin", paramBytes (dictGetD oracle "kelvin" 3500 : Int).toNat 2⟩,
              ⟨"duration", paramBytes (pyInt ((1/10 : ℚ) * 1000)).toNat 4⟩]⟩
            "duration" = some (leDecode (paramBytes (pyInt ((1/10 : ℚ) * 1000)).toNat 4)) := rfl
        rw [this, leDecode_paramBytes, hd100]
        rfl

/-- C7: processing motion-detected, then motion-cleared, then
motion-detected again before the inactivity timer fires (no `timeout`
event occurs in the trace) leaves the controller active with the
inactivity timer cancelled, and no light command of any kind is
issued. -/
theorem C7_retrigger_cancels_timer_no_commands :
    ∀ (oracle : List (String × Nat)) (fadetime : ℚ),
      (run oracle fadetime MotionHandler.init
        [.motion, .no_motion, .motion]).is_active = true ∧
      (run oracle fadetime MotionHandler.init
        [.motion, .no_motion, .motion]).timer_alive = false ∧
      (run oracle fadetime MotionHandler.init
        [.motion, .no_motion, .motion]).sent = [] := by
  intro oracle ft
  exact ⟨rfl, rfl, rfl⟩

/-- The cache invariant the poll loop maintains: `last_state` is either
still empty or holds a reading whose power is reported on
(`power ≥ 0xFF00`) and whose brightness exceeds ten times the dark floor
(`brightness > 0.1 * 0xFFFF = 6553.5`, i.e. `10 * brightness > 65535`). -/
def GoodCache (m : List (String × Nat)) : Prop :=
  m = [] ∨ (powerOn m = true ∧ 65535 < 10 * dictGetD m "brightness" 0)

/-- C8: the poll loop's cache update preserves the invariant that
`last_state` only ever holds a bright, powered-on reading: a reading with
power off is never cached, the motion-handler events never touch the
cache, and a brightness-30000 power-on reading taken while the controller
is active does become the cached state. -/
theorem C8_cache_invariant :
    (∀ (s : HandlerState) (ns : List (String × Nat)),
      GoodCache s.last_state → GoodCache (pollStep s ns).last_state) ∧
    (∀ (s : HandlerState) (ns : List (String × Nat)),
      powerOn ns = false → (pollStep s ns).last_state = s.last_state) ∧
    (∀ (oracle : List (String × Nat)) (fadetime : ℚ) (s : HandlerState)
      (e : MotionEvent), (step oracle fadetime s e).last_state = s.last_state) ∧
    (pollStep MotionHandler.init
        [("hue", 1000), ("saturation", 2000), ("brightness", 30000),
         ("kelvin", 3500), ("power", 65535)] =
      { MotionHandler.init with last_state :=
          [("hue", 1000), ("saturation", 2000), ("brightness", 30000),
           ("kelvin", 3500), ("power", 65535)] } ∧
      dictGetD [("hue", 1000), ("saturation", 2000), ("brightness", 30000),
        ("kelvin", 3500), ("power", 65535)] "brightness" 0 = 30000) := by
  refine ⟨?_, ?_, ?_, by decide, by decide⟩
  · intro s ns h
    simp only [pollStep]
    split_ifs with g1 g2 g3
    · exact Or.inr ⟨g2.2, g2.1⟩
    · exact h
    · exact h
    · exact h
  · intro s ns hpw
    simp only [pollStep]
    split_ifs with g1 g2 g3
    · rw [hpw] at g2
      cases g2.2
    · rfl
    · rfl
    · rfl
  · intro oracle ft s e
    cases e with
    | motion =>
      show (MotionHandler.motion oracle s).last_state = s.last_state
      by_cases h : s.is_active
      · simp [MotionHandler.motion, h]
      · cases hd : dictGet s.last_state "brightness" <;>
          simp [MotionHandler.motion, MotionHandler.brightness, h, hd]
    | no_motion => rfl
    | timeout =>
      show (if s.timer_alive then _ else s).last_state = s.last_state
      by_cases h : s.timer_alive <;>
        simp [h, MotionHandler.timeout, MotionHandler.brightness]
    | fading_timeout =>
      show (if s.fading_timer_alive then _ else s).last_state = s.last_state
      by_cases h : s.fading_timer_alive <;>
        simp [h, MotionHandler.fading_false]

/-- C9: the claim states the 4-byte duration field holds
`round(duration_seconds * 1000)`. The code computes
`int(duration * 1000)`, which truncates: at `duration = 0.0015` seconds
(where `0.0015 * 1000` is exactly `1.5` in IEEE doubles) the built field
holds 1 while rounding to the nearest integer gives 2. -/
theorem C9_counterexample :
    ∃ p, Packet.state 0 0 0 3500 (3/2000) = .ok p ∧
      payloadField p "duration" = some 1 ∧
      ((1 : ℤ) ≠ round ((3/2000 : ℚ) * 1000)) := by
  have h1 : pyInt ((3/2000 : ℚ) * 1000) = 1 := by
    have e1 : ((3/2000 : ℚ) * 1000) = 3/2 := by norm_num
    rw [e1, pyInt_eq_floor (by norm_num)]
    norm_num
  refine ⟨⟨⟨"size", paramBytes 49 2⟩ :: hdrFrame, hdrFA, hdrPH 102,
    [⟨"reserved", List.replicate 1 0⟩,
     ⟨"hue", paramBytes ((0 : Int)).toNat 2⟩,
     ⟨"saturation", paramBytes ((0 : Int)).toNat 2⟩,
     ⟨"brightness", paramBytes ((0 : Int)).toNat 2⟩,
     ⟨"kelvin", paramBytes ((3500 : Int)).toNat 2⟩,
     ⟨"duration", paramBytes (pyInt ((3/2000 : ℚ) * 1000)).toNat 4⟩]⟩, ?_, ?_, ?_⟩
  · exact state_eq 0 0 0 3500 (3/2000) le_rfl (by norm_num) le_rfl (by norm_num)
      le_rfl (by norm_num) (by norm_num) (by norm_num) (by rw [h1]; norm_num)
      (by rw [h1]; norm_num)
  · have hfield : payloadField
        ⟨⟨"size", paramBytes 49 2⟩ :: hdrFrame, hdrFA, hdrPH 102,
         [⟨"reserved", List.replicate 1 0⟩,
          ⟨"hue", paramBytes ((0 : Int)).toNat 2⟩,
          ⟨"saturation", paramBytes ((0 : Int)).toNat 2⟩,
          ⟨"brightness", paramBytes ((0 : Int)).toNat 2⟩,
          ⟨"kelvin", paramBytes ((3500 : Int)).toNat 2⟩,
          ⟨"duration", paramBytes (pyInt ((3/2000 : ℚ) * 1000)).toNat 4⟩]⟩
        "duration" = some (leDecode (paramBytes (pyInt ((3/2000 : ℚ) * 1000)).toNat 4)) := rfl
    rw [hfield, leDecode_paramBytes, h1]
    rfl
  · have e1 : ((3/2000 : ℚ) * 1000) = 3/2 := by norm_num
    rw [e1]
    have h2 : round ((3 : ℚ)/2) = 2 := by norm_num [round_eq]
    omega

/-- C9 (amended): for all in-range arguments the 4-byte duration field of
a built set-color packet holds the duration in milliseconds truncated to
an integer, `int(duration * 1000) = ⌊duration * 1000⌋` for non-negative
durations — not the rounded value, from which it can differ by one. -/
theorem C9_duration_truncates :
    ∀ (h s b k : Int) (d : ℚ),
      0 ≤ h → h < 65536 → 0 ≤ s → s < 65536 → 0 ≤ b → b < 65536 →
      0 ≤ k → k < 65536 → 0 ≤ d → d ≤ 4294967 →
      ∃ p, Packet.state h s b k d = .ok p ∧
        payloadField p "duration" = some (⌊d * 1000⌋.toNat) := by
  intro h s b k d hh0 hh1 hs0 hs1 hb0 hb1 hk0 hk1 hd0 hd1
  obtain ⟨hp0, hp1⟩ := pyInt_mul1000_bounds hd0 hd1
  refine ⟨_, state_eq h s b k d hh0 hh1 hs0 hs1 hb0 hb1 hk0 hk1 hp0 hp1, ?_⟩
  have hfield : payloadField
      ⟨⟨"size", paramBytes 49 2⟩ :: hdrFrame, hdrFA, hdrPH 102,
       [⟨"reserved", List.replicate 1 0⟩,
        ⟨"hue", paramBytes h.toNat 2⟩, ⟨"saturation", paramBytes s.toNat 2⟩,
        ⟨"brightness", paramBytes b.toNat 2⟩, ⟨"kelvin", paramBytes k.toNat 2⟩,
        ⟨"duration", paramBytes (pyInt (d * 1000)).toNat 4⟩]⟩
      "duration" = some (leDecode (paramBytes (pyInt (d * 1000)).toNat 4)) := rfl
  rw [hfield, leDecode_paramBytes, pyInt_eq_floor (by positivity)]

/-- C9 (witness): the amended statement applied at one second: the field
holds 1000 milliseconds. -/
theorem C9_duration_witness :
    ∃ p, Packet.state 0 0 0 3500 1 = .ok p ∧
      payloadField p "duration" = some (⌊(1 : ℚ) * 1000⌋.toNat) :=
  C9_duration_truncates 0 0 0 3500 1 le_rfl (by norm_num) le_rfl (by norm_num)
    le_rfl (by norm_num) (by norm_num) (by norm_num) (by norm_num) (by norm_num)

/-- C10: reading `msgtype` raises `StopIteration` exactly when the
protocol-header part has no parameter named "message type" — in
particular on a freshly constructed `Packet()` — and returns the decoded
integer exactly when such a parameter is present (102 after
`set_headers(102)`). -/
theorem C10_msgtype_stopiteration_without_header :
    Packet.msgtype Packet.empty = .error .stopIteration ∧
    (∀ pk : Packet, (∃ n, pk.msgtype = .ok n) ↔
      ∃ par ∈ pk.protocol_header, par.name = "message type") ∧
    (∃ pk, Packet.set_headers Packet.empty 102 false 123 true false 0 = .ok pk ∧
      pk.msgtype = .ok 102) := by
  refine ⟨rfl, ?_, ⟨_, set_headers102, by rfl⟩⟩
  intro pk
  constructor
  · rintro ⟨n, hn⟩
    unfold Packet.msgtype at hn
    cases hf : pk.protocol_header.find? (fun par => par.name == "message type") with
    | none => rw [hf] at hn; cases hn
    | some par =>
      have hmem := List.mem_of_find?_eq_some hf
      have hp := List.find?_some hf
      exact ⟨par, hmem, by simpa using hp⟩
  · rintro ⟨par, hmem, hname⟩
    have hs : (pk.protocol_header.find?
        (fun par => par.name == "message type")).isSome := by
      rw [List.find?_isSome]
      exact ⟨par, hmem, by simpa using hname⟩
    unfold Packet.msgtype
    cases hf : pk.protocol_header.find? (fun par => par.name == "message type") with
    | none => rw [hf] at hs; cases hs
    | some q => exact ⟨leDecode q.bytes, rfl⟩

end Lifx
